import Mathlib

/-!
# Verification of the foodgram backend serialization layer

Shallow embedding of `backend/api/serializers.py` (and the entity schema from
`backend/recipes/migrations/0002_initial.py`): the base64 image decoder, the
user representation, and the recipe create/update assembly workflow, together
with proofs of the specified properties.

Python strings are embedded as `List Char`, byte strings as `List Nat`
(each entry `< 256`), dictionaries of the wire payload as a small inductive
`PyVal`, and exceptions as `Except` errors.
-/

deriving instance DecidableEq for Except

namespace Foodgram

/-! ## Python exceptions and field-level validation errors

The serializer layer distinguishes uncaught Python exceptions (`KeyError`
from `dict.pop`, `ValueError` from tuple unpacking or non-ASCII decode input,
`binascii.Error` from `base64.b64decode`, `IntegrityError` from a bad
foreign-key insert) from DRF `ValidationError`s, which the framework collects
per field into a structured error response. -/

inductive FieldErr where
  | required
  | incorrectType
  | doesNotExist
  | emptyList
  | notAFile
  deriving DecidableEq, Repr

inductive PyError where
  | keyError
  | valueError
  | binasciiError
  | integrityError
  | notAuthenticated
  | attributeError
  | validationError (errs : List (String × FieldErr))
  deriving DecidableEq, Repr

/-! ## base64 (`base64.b64decode`, CPython `binascii.a2b_base64`, non-strict)

`Base64ImageField.to_internal_value` calls `base64.b64decode(imgstr)` with the
default (non-strict) mode.  CPython first requires the string to be pure
ASCII (`ValueError` otherwise), then runs `a2b_base64`: characters outside
the base64 alphabet are silently discarded; a pad character `=` seen at quad
position 2 (when the next alphabet-or-pad character is again `=`) or at quad
position 3 terminates decoding successfully; at the end, leftover bits mean
`binascii.Error` (incorrect padding). -/

/-- Value of a base64 data character (CPython `table_a2b_base64`),
`none` for everything else including the pad `=`. -/
def b64val (c : Char) : Option Nat :=
  let n := c.toNat
  if 65 ≤ n ∧ n ≤ 90 then some (n - 65)
  else if 97 ≤ n ∧ n ≤ 122 then some (n - 97 + 26)
  else if 48 ≤ n ∧ n ≤ 57 then some (n - 48 + 52)
  else if n = 43 then some 62
  else if n = 47 then some 63
  else none

/-- A character `binascii_find_valid` counts: a data character or the pad. -/
def b64valid (c : Char) : Bool :=
  (b64val c).isSome || c = '='

/-- The decode loop of CPython `a2b_base64` (non-strict mode): state is the
quad position, the pending bit buffer (`leftchar`, kept reduced modulo
`2 ^ leftbits`), the pending bit count and the reversed output. -/
def a2bLoop : List Char → Nat → Nat → Nat → List Nat → Except PyError (List Nat)
  | [], _, _, leftbits, out =>
      if leftbits ≠ 0 then .error .binasciiError else .ok out.reverse
  | c :: rest, quadPos, leftchar, leftbits, out =>
      if c = '=' then
        if quadPos < 2 then
          a2bLoop rest quadPos leftchar leftbits out
        else if quadPos = 2 then
          match rest.find? b64valid with
          | some d =>
              if d = '=' then .ok out.reverse
              else a2bLoop rest quadPos leftchar leftbits out
          | none => a2bLoop rest quadPos leftchar leftbits out
        else .ok out.reverse
      else
        match b64val c with
        | none => a2bLoop rest quadPos leftchar leftbits out
        | some v =>
            let quadPos' := (quadPos + 1) % 4
            let leftchar' := leftchar * 64 + v
            let leftbits' := leftbits + 6
            if 8 ≤ leftbits' then
              a2bLoop rest quadPos' (leftchar' % 2 ^ (leftbits' - 8))
                (leftbits' - 8) ((leftchar' / 2 ^ (leftbits' - 8)) % 256 :: out)
            else
              a2bLoop rest quadPos' leftchar' leftbits' out

/-- `base64.b64decode` on a Python `str`: reject non-ASCII input with
`ValueError`, then run the `a2b_base64` loop from the empty state. -/
def b64decode (s : List Char) : Except PyError (List Nat) :=
  if s.all (fun c => c.toNat < 128) then
    a2bLoop s 0 0 0 []
  else
    .error .valueError

/-- Reference base64 alphabet, index `i` holding the character of value `i`. -/
def b64chars : List Char :=
  "ABCDEFGHIJKLMNOPQRSTUVWXYZabcdefghijklmnopqrstuvwxyz0123456789+/".data

/-- Character of a 6-bit value in the reference alphabet. -/
def b64char (n : Nat) : Char := b64chars.getD n 'A'

/-- Reference (RFC 4648) base64 encoder with padding, used to range over the
valid payloads of the specified decoding property. -/
def b64encode : List Nat → List Char
  | [] => []
  | [b1] =>
      [b64char (b1 / 4), b64char (b1 % 4 * 16), '=', '=']
  | [b1, b2] =>
      [b64char (b1 / 4), b64char (b1 % 4 * 16 + b2 / 16), b64char (b2 % 16 * 4), '=']
  | b1 :: b2 :: b3 :: rest =>
      b64char (b1 / 4) :: b64char (b1 % 4 * 16 + b2 / 16) ::
        b64char (b2 % 16 * 4 + b3 / 64) :: b64char (b3 % 64) :: b64encode rest

/-! ## Python `str.split` on a substring separator

`data.split(';base64,')` and `format.split('/')` split on every occurrence of
the (non-empty) separator.  The separator is passed as head and tail so that
it is non-empty by construction. -/

/-- Splitting loop: `acc` is the reversed current chunk.  The loop consumes
at least one character per step, so it is driven by a fuel counter (kept
structural so that the kernel can evaluate it); with fuel at least the
length of the input, the fuel never runs out. -/
def splitAux (h : Char) (t : List Char) : Nat → List Char → List Char → List (List Char)
  | _, [], acc => [acc.reverse]
  | 0, l, acc => [acc.reverse ++ l]
  | fuel + 1, c :: cs, acc =>
      if (h :: t).isPrefixOf (c :: cs) then
        acc.reverse :: splitAux h t fuel ((c :: cs).drop (h :: t).length) []
      else
        splitAux h t fuel cs (c :: acc)

/-- Python `s.split(sep)` for the non-empty separator `h :: t`. -/
def splitOnSub (h : Char) (t : List Char) (s : List Char) : List (List Char) :=
  splitAux h t s.length s []

/-! ## The image field (`Base64ImageField`)

The field accepts either a raw uploaded file or a Python string; a string
beginning with `data:image` is split on `;base64,` (tuple unpacking of the
result raises `ValueError` unless the split has exactly two parts), the
extension is the last `/`-separated chunk of the part before the separator,
and the decoded payload becomes a `ContentFile` named `temp.<ext>`.
Everything else is handed to the parent `ImageField`. -/

/-- A decoded or uploaded binary file (`django.core.files.base.ContentFile`
or an upload), with its name and its bytes. -/
structure ContentFile where
  name : List Char
  content : List Nat
  deriving DecidableEq, Repr

/-- Input to the image field: a Python string or an uploaded file. -/
inductive ImageData where
  | str (s : List Char)
  | file (f : ContentFile)
  deriving DecidableEq, Repr

/-- Modelled from the spec: the parent `ImageField.to_internal_value`
"passes file uploads through unchanged" and rejects non-file data with a
validation error; its Pillow-based check of the image *content* is performed
by an external collaborator and is not modelled. -/
def imageFieldParent (data : ImageData) : Except PyError ContentFile :=
  match data with
  | .file f => .ok f
  | .str _ => .error (.validationError [("image", .notAFile)])

/-- The tail of the separator `;base64,` (its head `;` is passed apart so
the separator is non-empty by construction). -/
def b64sepTail : List Char := "base64,".data

namespace Base64ImageField

/-- `Base64ImageField.to_internal_value` (serializers.py lines 35-40). -/
def to_internal_value (data : ImageData) : Except PyError ContentFile :=
  match data with
  | .str s =>
      if ("data:image".data).isPrefixOf s then
        match splitOnSub ';' b64sepTail s with
        | [format, imgstr] =>
            let ext := (splitOnSub '/' [] format).getLastD []
            match b64decode imgstr with
            | .ok bytes => imageFieldParent (.file ⟨"temp.".data ++ ext, bytes⟩)
            | .error e => .error e
        | _ => .error .valueError
      else
        imageFieldParent data
  | .file _ => imageFieldParent data

end Base64ImageField

/-! ## Entity store

Rows of the relational tables of §3 of the spec.  `models.py` is not part of
the excerpt; field layouts follow the spec's data model (§3) and the way the
serializers use the rows.  Foreign keys are embedded as the primary key of
the referenced row. -/

structure Tag where
  id : Nat
  name : String
  slug : String
  deriving DecidableEq, Repr

structure Ingredient where
  id : Nat
  name : String
  measurement_unit : String
  deriving DecidableEq, Repr

/-- Modelled from the spec: "AmountOfIngredient: a (ingredient, amount)
pair; get-or-create semantics — reused across recipes". -/
structure AmountOfIngredient where
  id : Nat
  ingredient : Nat
  amount : Nat
  deriving DecidableEq, Repr

structure Recipe where
  id : Nat
  author : Nat
  name : String
  image : ContentFile
  text : String
  cooking_time : Nat
  deriving DecidableEq, Repr

/-- Modelled from the spec: "TagInRecipe: join records linking a Recipe to a
Tag" (the serializer creates these rows with `tag=` and `recipe=` keys). -/
structure TagInRecipe where
  tag : Nat
  recipe : Nat
  deriving DecidableEq, Repr

/-- Modelled from the spec: "IngredientInRecipe: join records linking a
Recipe to an AmountOfIngredient". -/
structure IngredientInRecipe where
  amount_of_ingredient : Nat
  recipe : Nat
  deriving DecidableEq, Repr

structure User where
  id : Nat
  email : String
  username : String
  first_name : String
  last_name : String
  avatar : Option ContentFile
  deriving DecidableEq, Repr

/-- The relational store: one list of rows per table, plus auto-increment
counters for the two tables into which the assembly workflow inserts rows.
`subscriptions` holds (follower, author) pairs of the subscription join. -/
structure Store where
  users : List User
  tags : List Tag
  ingredients : List Ingredient
  amounts : List AmountOfIngredient
  recipes : List Recipe
  tagJoins : List TagInRecipe
  ingredientJoins : List IngredientInRecipe
  subscriptions : List (Nat × Nat)
  nextRecipeId : Nat
  nextAmountId : Nat
  deriving DecidableEq, Repr

/-- `Tag.objects.get_or_create(id=pk)` (line 183): return the existing row
with that primary key, or insert one whose other columns are the field
defaults (blank). -/
def getOrCreateTag (s : Store) (pk : Nat) : (Tag × Bool) × Store :=
  match s.tags.find? (fun t => t.id == pk) with
  | some t => ((t, false), s)
  | none =>
      let t : Tag := ⟨pk, "", ""⟩
      ((t, true), { s with tags := s.tags ++ [t] })

/-- `AmountOfIngredient.objects.get_or_create(ingredient=…, amount=…)`
(lines 190-195): return the existing row with that (ingredient, amount)
pair, or insert a fresh one.  The insert enforces the foreign key: if the
referenced Ingredient row is gone the database raises `IntegrityError`. -/
def getOrCreateAmount (s : Store) (ingredientId amount : Nat) :
    Except PyError ((AmountOfIngredient × Bool) × Store) :=
  match s.amounts.find? (fun r => r.ingredient == ingredientId && r.amount == amount) with
  | some r => .ok ((r, false), s)
  | none =>
      if s.ingredients.any (fun i => i.id == ingredientId) then
        let row : AmountOfIngredient := ⟨s.nextAmountId, ingredientId, amount⟩
        .ok ((row, true),
          { s with amounts := s.amounts ++ [row], nextAmountId := s.nextAmountId + 1 })
      else
        .error .integrityError

/-! ## Wire payloads and field validation -/

/-- A fragment of a JSON-ish Python value, for the nested list entries of the
`tags` and `ingredients` payload keys. -/
inductive PyVal where
  | num (n : Nat)
  | str (s : String)
  | dict (fields : List (String × PyVal))

/-- Dictionary lookup on a `PyVal`. -/
def PyVal.lookup (v : PyVal) (key : String) : Option PyVal :=
  match v with
  | .dict fs => (fs.find? (fun p => p.1 == key)).map (fun p => p.2)
  | _ => none

/-- `PrimaryKeyRelatedField(queryset=Tag.objects.all())`: the submitted value
is used as a primary key (`queryset.get(pk=data)`); an integer or a numeric
string resolves, a missing row is `DoesNotExist`, anything else is the
`incorrect_type` validation error. -/
def tagPkField (s : Store) (v : PyVal) : Except FieldErr Tag :=
  let lookupPk := fun (n : Nat) =>
    match s.tags.find? (fun t => t.id == n) with
    | some t => Except.ok t
    | none => Except.error FieldErr.doesNotExist
  match v with
  | .num n => lookupPk n
  | .str st =>
      match st.toNat? with
      | some n => lookupPk n
      | none => .error .incorrectType
  | _ => .error .incorrectType

/-- `PrimaryKeyRelatedField(queryset=Ingredient.objects.all())` of
`IngredientInRecipeSerializer.id` (lines 143-147). -/
def ingredientPkField (s : Store) (v : PyVal) : Except FieldErr Ingredient :=
  let lookupPk := fun (n : Nat) =>
    match s.ingredients.find? (fun i => i.id == n) with
    | some i => Except.ok i
    | none => Except.error FieldErr.doesNotExist
  match v with
  | .num n => lookupPk n
  | .str st =>
      match st.toNat? with
      | some n => lookupPk n
      | none => .error .incorrectType
  | _ => .error .incorrectType

/-- `TagsInRecipeSerializer` (lines 130-139) on one entry: the entry must be
a dictionary with a (required) `id` key whose value resolves through the
primary-key field; `name` and `slug` are read-only.  The validated value
carries the resolved Tag instance. -/
def tagsInRecipeRun (s : Store) (v : PyVal) : Except FieldErr Tag :=
  match v with
  | .dict _ =>
      match v.lookup "id" with
      | some idv => tagPkField s idv
      | none => .error .required
  | _ => .error .incorrectType

/-- The `tags = TagsInRecipeSerializer(many=True)` field: validate each
entry, failing on the first invalid one. -/
def validateTagsField (s : Store) : List PyVal → Except FieldErr (List Tag)
  | [] => .ok []
  | v :: vs =>
      match tagsInRecipeRun s v with
      | .error e => .error e
      | .ok t =>
          match validateTagsField s vs with
          | .error e => .error e
          | .ok ts => .ok (t :: ts)

/-- `IngredientInRecipeSerializer` (lines 142-155) on one entry: a dictionary
with a required `id` resolving to an Ingredient row (the `source` is
`ingredient.id`, so the validated entry nests the instance under
`ingredient → id`) and a required integer `amount`. -/
def ingredientInRecipeRun (s : Store) (v : PyVal) : Except FieldErr (Ingredient × Nat) :=
  match v with
  | .dict _ =>
      match v.lookup "id", v.lookup "amount" with
      | some idv, some (.num a) =>
          match ingredientPkField s idv with
          | .ok ing => .ok (ing, a)
          | .error e => .error e
      | some _, some _ => .error .incorrectType
      | _, _ => .error .required
  | _ => .error .incorrectType

/-- The `ingredients = IngredientInRecipeSerializer(many=True)` field. -/
def validateIngredientsList (s : Store) : List PyVal → Except FieldErr (List (Ingredient × Nat))
  | [] => .ok []
  | v :: vs =>
      match ingredientInRecipeRun s v with
      | .error e => .error e
      | .ok p =>
          match validateIngredientsList s vs with
          | .error e => .error e
          | .ok ps => .ok (p :: ps)

/-- `RecipeCreateSerializer.validate_ingredients` (lines 164-167): an empty
validated list is a validation failure; a non-empty one is returned as is. -/
def validate_ingredients (value : List (Ingredient × Nat)) :
    Except FieldErr (List (Ingredient × Nat)) :=
  if value = [] then .error .emptyList else .ok value

/-- The full `ingredients` field: element-wise validation, then the
`validate_<field>` hook. -/
def validateIngredientsField (s : Store) (vs : List PyVal) :
    Except FieldErr (List (Ingredient × Nat)) :=
  match validateIngredientsList s vs with
  | .error e => .error e
  | .ok ps => validate_ingredients ps

/-- The `image` field of the recipe serializers.  DRF catches a
`ValidationError` raised by a field and records it in the per-field error
map (inner `Except`); a `ValueError` or `binascii.Error` escaping
`Base64ImageField.to_internal_value` is not caught and propagates as an
unhandled exception (outer `Except`).  `required` is `True` on the create
serializer (line 160) and `False` on the update serializer (line 221); an
omitted optional field is simply absent from the validated data. -/
def validateImageField (required : Bool) (v : Option ImageData) :
    Except PyError (Except FieldErr (Option ContentFile)) :=
  match v with
  | none => if required then .ok (.error .required) else .ok (.ok none)
  | some d =>
      match Base64ImageField.to_internal_value d with
      | .ok f => .ok (.ok (some f))
      | .error (.validationError _) => .ok (.error .notAFile)
      | .error e => .error e

/-- The raw request payload of the recipe endpoints.  `tags = none` models a
payload with no `tags` key at all; `image = none` one with no `image` key.
The scalar fields carry already-typed values (their validation is framework
passthrough and not part of any claim). -/
structure RawPayload where
  tags : Option (List PyVal)
  ingredients : List PyVal
  name : String
  image : Option ImageData
  text : String
  cooking_time : Nat

/-- Line 171: each incoming bare tag value is wrapped into an
`id`-keyed object. -/
def wrapTag (v : PyVal) : PyVal := .dict [("id", v)]

/-- The validated data handed to `create`/`update`: resolved Tag instances,
resolved (Ingredient, amount) pairs, and the decoded image (absent only
when the update serializer omitted it). -/
structure ValidatedData where
  tags : List Tag
  ingredients : List (Ingredient × Nat)
  name : String
  image : Option ContentFile
  text : String
  cooking_time : Nat
  deriving DecidableEq, Repr

/-- Per-field error list entry for the collected validation errors. -/
def errOf {α : Type} (fieldName : String) : Except FieldErr α → List (String × FieldErr)
  | .error e => [(fieldName, e)]
  | .ok _ => []

/-- `RecipeCreateSerializer.to_internal_value` (lines 169-172) followed by
the framework's field-by-field validation: `data.pop('tags')` raises
`KeyError` when the key is absent; otherwise the bare tag values are wrapped
into `id`-keyed objects and every field is validated, the per-field
validation errors being collected into one structured `ValidationError`
(an unhandled exception from the image field propagates instead). -/
def recipeInternalValue (imageRequired : Bool) (s : Store) (p : RawPayload) :
    Except PyError ValidatedData :=
  match p.tags with
  | none => .error .keyError
  | some ts =>
      let tr := validateTagsField s (ts.map wrapTag)
      let ir := validateIngredientsField s p.ingredients
      match validateImageField imageRequired p.image with
      | .error e => .error e
      | .ok mr =>
          match tr, ir, mr with
          | .ok tags, .ok ings, .ok img =>
              .ok ⟨tags, ings, p.name, img, p.text, p.cooking_time⟩
          | _, _, _ =>
              .error (.validationError
                (errOf "tags" tr ++ errOf "ingredients" ir ++ errOf "image" mr))

namespace RecipeCreateSerializer

/-- The create serializer's deserialization: image required (line 160). -/
def to_internal_value (s : Store) (p : RawPayload) : Except PyError ValidatedData :=
  recipeInternalValue true s p

end RecipeCreateSerializer

namespace RecipeUpdateSerializer

/-- The update serializer's deserialization: identical to creation except
that the image field is optional (line 221). -/
def to_internal_value (s : Store) (p : RawPayload) : Except PyError ValidatedData :=
  recipeInternalValue false s p

end RecipeUpdateSerializer

/-! ## The creation workflow (`RecipeCreateSerializer.create`, lines 174-200)

The source wraps none of the writes in a transaction (`transaction.atomic`
does not appear), so under Django's default autocommit every insert commits
on its own: when a later step raises, the earlier writes stay persisted.
The embedding makes this visible by carrying the store as it stands at the
moment of failure inside the error value. -/

/-- The tag loop (lines 182-187): get-or-create each Tag row by primary key,
then insert a TagInRecipe join row. -/
def tagLoop (recipeId : Nat) : Store → List Tag → Store
  | s, [] => s
  | s, t :: ts =>
      let r := getOrCreateTag s t.id
      let s2 := { r.2 with tagJoins := r.2.tagJoins ++ [⟨r.1.1.id, recipeId⟩] }
      tagLoop recipeId s2 ts

/-- The ingredient loop (lines 189-199): get-or-create each
AmountOfIngredient row by (ingredient, amount), then insert an
IngredientInRecipe join row.  A failing step aborts the loop; the store
inside the error is what autocommit has already persisted. -/
def ingredientLoop (recipeId : Nat) : Store → List (Ingredient × Nat) →
    Except (PyError × Store) Store
  | s, [] => .ok s
  | s, (ing, amt) :: rest =>
      match getOrCreateAmount s ing.id amt with
      | .error e => .error (e, s)
      | .ok ((row, _), s1) =>
          let s2 := { s1 with ingredientJoins := s1.ingredientJoins ++ [⟨row.id, recipeId⟩] }
          ingredientLoop recipeId s2 rest

namespace RecipeCreateSerializer

/-- `RecipeCreateSerializer.create` (lines 174-200): insert the Recipe row
with the requester as author, then run the tag loop, then the ingredient
loop.  No transaction demarcation exists in the source, so an error carries
the partially updated store. -/
def create (s : Store) (authorId : Nat) (vd : ValidatedData) :
    Except (PyError × Store) (Recipe × Store) :=
  let recipe : Recipe :=
    ⟨s.nextRecipeId, authorId, vd.name, vd.image.getD ⟨[], []⟩, vd.text, vd.cooking_time⟩
  let s1 := { s with recipes := s.recipes ++ [recipe], nextRecipeId := s.nextRecipeId + 1 }
  let s2 := tagLoop recipe.id s1 vd.tags
  match ingredientLoop recipe.id s2 vd.ingredients with
  | .error es => .error es
  | .ok s3 => .ok (recipe, s3)

end RecipeCreateSerializer

/-- One recipe-creation request end to end: deserialize and validate, and
only if validation succeeded run the assembly.  A validation failure leaves
the store untouched; a failure inside the assembly leaves the writes made
so far. -/
def processCreate (s : Store) (authorId : Nat) (p : RawPayload) :
    Except (PyError × Store) (Recipe × Store) :=
  match RecipeCreateSerializer.to_internal_value s p with
  | .error e => .error (e, s)
  | .ok vd => RecipeCreateSerializer.create s authorId vd

/-- Modelled from the spec: the update serializer inherits the framework's
default model update, which applies exactly the keys present in the
validated data to the instance and leaves the others untouched (the source
defines no `update` method). -/
def updateRecipe (r : Recipe) (vd : ValidatedData) : Recipe :=
  { r with
    name := vd.name
    text := vd.text
    cooking_time := vd.cooking_time
    image := vd.image.getD r.image }

/-! ## User representation (`UserMeSerializer`, lines 51-67) -/

/-- The user attached to the request: Django's `request.user` is either an
authenticated account or the anonymous user. -/
structure ReqUser where
  id : Nat
  is_authenticated : Bool
  deriving DecidableEq, Repr

structure Request where
  user : ReqUser
  deriving DecidableEq, Repr

/-- The serializer context: `self.context.get('request')` is `none` when no
request was put into the context. -/
structure Context where
  request : Option Request
  deriving DecidableEq, Repr

/-- The rendered user object of the wire format. -/
structure UserRepr where
  email : String
  id : Nat
  username : String
  first_name : String
  last_name : String
  is_subscribed : Bool
  avatar : Option ContentFile
  deriving DecidableEq, Repr

/-- Modelled from the spec: `is_subscribed` is the viewer-relative flag
"whether the requesting viewer follows this user" (the flag is computed by
model code outside the excerpt); the other fields are copied from the row. -/
def renderUser (s : Store) (viewerId : Nat) (u : User) : UserRepr :=
  ⟨u.email, u.id, u.username, u.first_name, u.last_name,
    s.subscriptions.any (fun pr => pr.1 == viewerId && pr.2 == u.id), u.avatar⟩

namespace UserMeSerializer

/-- `UserMeSerializer.to_representation` (lines 63-67): fetch the request
from the context (`None` there makes the attribute access fail), render the
full representation for an authenticated requester, and raise
`NotAuthenticated` otherwise. -/
def to_representation (s : Store) (ctx : Context) (inst : User) : Except PyError UserRepr :=
  match ctx.request with
  | none => .error .attributeError
  | some req =>
      if req.user.is_authenticated then .ok (renderUser s req.user.id inst)
      else .error .notAuthenticated

end UserMeSerializer

/-! ## Read-side rendering of a Recipe (for the round-trip property)

The read serializers render `tags` as full nested objects and `ingredients`
as nested objects with the read-only `name`/`measurement_unit`, and render
the stored image the way Django serializes a file field: as its URL string,
not as a data URI. -/

/-- Tag rows joined to a recipe. -/
def tagsOfRecipe (s : Store) (rid : Nat) : List Tag :=
  (s.tagJoins.filter (fun j => j.recipe == rid)).filterMap
    (fun j => s.tags.find? (fun t => t.id == j.tag))

/-- AmountOfIngredient rows joined to a recipe. -/
def amountsOfRecipe (s : Store) (rid : Nat) : List AmountOfIngredient :=
  (s.ingredientJoins.filter (fun j => j.recipe == rid)).filterMap
    (fun j => s.amounts.find? (fun a => a.id == j.amount_of_ingredient))

/-- One rendered ingredient entry of the read representation. -/
def renderAmount (s : Store) (a : AmountOfIngredient) : PyVal :=
  match s.ingredients.find? (fun i => i.id == a.ingredient) with
  | some ing =>
      .dict [("id", .num ing.id), ("name", .str ing.name),
             ("measurement_unit", .str ing.measurement_unit), ("amount", .num a.amount)]
  | none => .dict [("id", .num a.ingredient), ("amount", .num a.amount)]

/-- Modelled from the spec: the recipe read representation of §6 — nested
tag objects with id, name and slug, nested ingredient objects, the scalar
fields, and the image rendered as its media URL string. -/
def serializeRecipe (s : Store) (r : Recipe) : RawPayload :=
  { tags := some ((tagsOfRecipe s r.id).map (fun t =>
        .dict [("id", .num t.id), ("name", .str t.name), ("slug", .str t.slug)])),
    ingredients := (amountsOfRecipe s r.id).map (renderAmount s),
    name := r.name,
    image := some (.str ("/media/".data ++ r.image.name)),
    text := r.text,
    cooking_time := r.cooking_time }

/-- Modelled from the spec's words, as the comparison point for the tag
normalization claim: validate each bare identifier directly against the
existing Tag rows, resolving it to its row and failing on a missing one. -/
def resolveBareTagIds (s : Store) : List Nat → Except FieldErr (List Tag)
  | [] => .ok []
  | n :: rest =>
      match s.tags.find? (fun t => t.id == n) with
      | some t =>
          match resolveBareTagIds s rest with
          | .error e => .error e
          | .ok ts => .ok (t :: ts)
      | none => .error .doesNotExist

/-! ## The missing-transaction scenario (claim C1)

A store holding only Ingredient 5, and validated create data whose second
ingredient entry carries a stale instance (id 99, deleted between
validation and assembly): the Recipe row, the AmountOfIngredient row for
ingredient 5 and its join row are committed before the foreign-key
violation aborts the loop. -/

def c1Ingredient : Ingredient := ⟨5, "salt", "g"⟩

def c1Stale : Ingredient := ⟨99, "pepper", "g"⟩

def c1Image : ContentFile := ⟨"x.png".data, [9]⟩

def c1Store : Store := ⟨[], [], [c1Ingredient], [], [], [], [], [], 1, 1⟩

def c1Data : ValidatedData :=
  ⟨[], [(c1Ingredient, 200), (c1Stale, 3)], "soup", some c1Image, "text", 10⟩

def c1Partial : Store :=
  ⟨[], [], [c1Ingredient], [⟨1, 5, 200⟩], [⟨1, 1, "soup", c1Image, "text", 10⟩],
    [], [⟨1, 1⟩], [], 2, 2⟩

/-! Concrete double-creation scenario witnessing C3. -/

def c3Salt : Ingredient := ⟨5, "salt", "g"⟩

def c3Image : ContentFile := ⟨"x.png".data, [9]⟩

def c3Store : Store := ⟨[], [], [c3Salt], [], [], [], [], [], 1, 1⟩

def c3Data : ValidatedData := ⟨[], [(c3Salt, 200)], "soup", some c3Image, "t", 10⟩

def c3Recipe1 : Recipe := ⟨1, 1, "soup", c3Image, "t", 10⟩

def c3Recipe2 : Recipe := ⟨2, 2, "soup", c3Image, "t", 10⟩

def c3Store1 : Store :=
  ⟨[], [], [c3Salt], [⟨1, 5, 200⟩], [c3Recipe1], [], [⟨1, 1⟩], [], 2, 2⟩

def c3Store2 : Store :=
  ⟨[], [], [c3Salt], [⟨1, 5, 200⟩], [c3Recipe1, c3Recipe2], [],
    [⟨1, 1⟩, ⟨1, 2⟩], [], 3, 2⟩

/-! Concrete persisted recipe whose serialized representation is re-submitted
verbatim (claim C7): the read form renders tags as objects and the image as a
URL string, both of which the write path rejects. -/

def c7Recipe : Recipe := ⟨1, 1, "soup", ⟨"x.png".data, [9]⟩, "t", 10⟩

def c7Store : Store :=
  ⟨[], [⟨2, "breakfast", "bf"⟩], [⟨5, "salt", "g"⟩], [⟨1, 5, 200⟩], [c7Recipe],
    [⟨2, 1⟩], [⟨1, 1⟩], [], 2, 2⟩

/-! ## General helper lemmas -/

theorem isPrefixOf_append_self (l t : List Char) : l.isPrefixOf (l ++ t) = true := by
  induction l with
  | nil => simp [List.isPrefixOf]
  | cons a as ih => simp [List.isPrefixOf, ih]

theorem find?_of_filter_nil {α : Type} {p : α → Bool} {l : List α}
    (h : l.filter p = []) : l.find? p = none := by
  rw [List.find?_eq_none]
  intro x hx
  simpa using List.filter_eq_nil_iff.mp h x hx

theorem find?_append_none {α : Type} {p : α → Bool} {l1 : List α} (l2 : List α)
    (h : l1.find? p = none) : (l1 ++ l2).find? p = l2.find? p := by
  rw [List.find?_append, h, Option.none_or]

/-! ## Claim theorems -/

/-- C10: a recipe create/update payload that lacks a `tags` key entirely
makes deserialization raise an unhandled `KeyError` (from the unconditional
`data.pop('tags')`) rather than return a structured validation error,
whatever the other fields hold — so before any other field validation can
report. -/
theorem missing_tags_key_raises_keyerror (s : Store) (p : RawPayload)
    (h : p.tags = none) :
    RecipeCreateSerializer.to_internal_value s p = .error .keyError ∧
    RecipeUpdateSerializer.to_internal_value s p = .error .keyError := by
  unfold RecipeCreateSerializer.to_internal_value RecipeUpdateSerializer.to_internal_value
    recipeInternalValue
  rw [h]
  exact ⟨rfl, rfl⟩

/-- Witness for C10 at a concrete payload without a `tags` key. -/
theorem missing_tags_key_raises_keyerror_witness :
    RecipeCreateSerializer.to_internal_value
        ⟨[], [], [], [], [], [], [], [], 0, 0⟩ ⟨none, [], "x", none, "y", 1⟩ =
      .error .keyError ∧
    RecipeUpdateSerializer.to_internal_value
        ⟨[], [], [], [], [], [], [], [], 0, 0⟩ ⟨none, [], "x", none, "y", 1⟩ =
      .error .keyError :=
  missing_tags_key_raises_keyerror _ _ rfl

/-- C6: rendering the full authenticated user representation for an
anonymous requester always fails with the authentication error and never
returns (partial) data. -/
theorem anonymous_full_representation_denied (s : Store) (ctx : Context)
    (inst : User) (req : Request) (hr : ctx.request = some req)
    (ha : req.user.is_authenticated = false) :
    UserMeSerializer.to_representation s ctx inst = .error .notAuthenticated := by
  unfold UserMeSerializer.to_representation
  rw [hr]
  simp [ha]

/-- Witness for C6 at a concrete anonymous request. -/
theorem anonymous_full_representation_denied_witness :
    UserMeSerializer.to_representation ⟨[], [], [], [], [], [], [], [], 0, 0⟩
        ⟨some ⟨⟨7, false⟩⟩⟩ ⟨1, "a@b", "u", "f", "l", none⟩ =
      .error .notAuthenticated :=
  anonymous_full_representation_denied _ _ _ ⟨⟨7, false⟩⟩ rfl rfl

/-- Characterization of the deserialization outcome when the `ingredients`
field fails validation: an unhandled image exception propagates; otherwise
the result is the collected per-field validation error. -/
theorem recipeInternal_ing_error (b : Bool) (s : Store) (p : RawPayload)
    (ts : List PyVal) (e : FieldErr) (hts : p.tags = some ts)
    (hing : validateIngredientsField s p.ingredients = .error e) :
    (∀ e', validateImageField b p.image = .error e' →
      recipeInternalValue b s p = .error e') ∧
    (∀ mr, validateImageField b p.image = .ok mr →
      recipeInternalValue b s p =
        .error (.validationError (errOf "tags" (validateTagsField s (ts.map wrapTag)) ++
          errOf "ingredients" (Except.error (α := List (Ingredient × Nat)) e) ++
          errOf "image" mr))) := by
  unfold recipeInternalValue
  rw [hts, hing]
  constructor
  · intro e' he'
    rw [he']
  · intro mr hmr
    rw [hmr]
    cases htr : validateTagsField s (ts.map wrapTag) <;> cases mr <;> simp [htr]

/-- C2: a recipe-creation request with an empty ingredient list always fails
during validation with the store untouched (no Recipe row is persisted);
whenever the request reaches the structured per-field error collection (a
`tags` key is present and the image field does not raise an unhandled
exception first), the failure is a structured validation error naming the
`ingredients` field. -/
theorem empty_ingredients_rejected (s : Store) (u : Nat) (p : RawPayload)
    (hi : p.ingredients = []) :
    (∃ e, processCreate s u p = .error (e, s)) ∧
    (∀ ts mr, p.tags = some ts → validateImageField true p.image = .ok mr →
      ∃ errs, processCreate s u p = .error (.validationError errs, s) ∧
        ("ingredients", FieldErr.emptyList) ∈ errs) := by
  have hing : validateIngredientsField s p.ingredients = .error .emptyList := by
    rw [hi]
    rfl
  cases htags : p.tags with
  | none =>
      refine ⟨⟨.keyError, ?_⟩, ?_⟩
      · unfold processCreate RecipeCreateSerializer.to_internal_value recipeInternalValue
        rw [htags]
      · intro ts mr hts hmr
        simp at hts
  | some ts =>
      have key := recipeInternal_ing_error true s p ts .emptyList htags hing
      cases himg : validateImageField true p.image with
      | error e =>
          refine ⟨⟨e, ?_⟩, ?_⟩
          · unfold processCreate RecipeCreateSerializer.to_internal_value
            rw [key.1 e himg]
          · intro ts' mr hts hmr
            simp at hmr
      | ok mr =>
          have hout := key.2 mr himg
          refine ⟨⟨.validationError (errOf "tags" (validateTagsField s (ts.map wrapTag)) ++
            errOf "ingredients" (Except.error (α := List (Ingredient × Nat)) FieldErr.emptyList) ++
            errOf "image" mr), ?_⟩, ?_⟩
          · unfold processCreate RecipeCreateSerializer.to_internal_value
            rw [hout]
          · intro ts' mr' hts hmr'
            refine ⟨errOf "tags" (validateTagsField s (ts.map wrapTag)) ++
              errOf "ingredients" (Except.error (α := List (Ingredient × Nat)) FieldErr.emptyList) ++
              errOf "image" mr, ?_, ?_⟩
            · unfold processCreate RecipeCreateSerializer.to_internal_value
              rw [hout]
            · simp [errOf]

/-- Witness for C2 at a concrete empty-ingredient payload. -/
theorem empty_ingredients_rejected_witness :
    (∃ e, processCreate ⟨[], [], [], [], [], [], [], [], 0, 0⟩ 1
        ⟨some [], [], "n", some (.file ⟨"a.png".data, [1]⟩), "t", 5⟩ =
        .error (e, ⟨[], [], [], [], [], [], [], [], 0, 0⟩)) ∧
    (∀ ts mr, (some [] : Option (List PyVal)) = some ts →
      validateImageField true (some (.file ⟨"a.png".data, [1]⟩)) = .ok mr →
      ∃ errs, processCreate ⟨[], [], [], [], [], [], [], [], 0, 0⟩ 1
          ⟨some [], [], "n", some (.file ⟨"a.png".data, [1]⟩), "t", 5⟩ =
          .error (.validationError errs, ⟨[], [], [], [], [], [], [], [], 0, 0⟩) ∧
        ("ingredients", FieldErr.emptyList) ∈ errs) :=
  empty_ingredients_rejected _ 1 _ rfl


/-- C9: for a list of bare tag identifiers, wrapping each value `v` into the
object `{id: v}` (line 171) and then running the nested-tag field validation
is exactly validating each identifier against the existing Tag rows. -/
theorem bare_tag_ids_normalized_and_resolved (s : Store) (ns : List Nat) :
    validateTagsField s ((ns.map PyVal.num).map wrapTag) = resolveBareTagIds s ns := by
  induction ns with
  | nil => rfl
  | cons n rest ih =>
      have hrun : tagsInRecipeRun s (wrapTag (.num n)) =
          (match s.tags.find? (fun t => t.id == n) with
            | some t => Except.ok t
            | none => Except.error FieldErr.doesNotExist) := by
        simp [tagsInRecipeRun, wrapTag, PyVal.lookup, tagPkField]
      simp only [List.map_cons]
      unfold validateTagsField resolveBareTagIds
      rw [hrun, ih]
      cases s.tags.find? (fun t => t.id == n) <;> rfl

/-- C8: the update payload is validated exactly like the creation payload
whenever an image value is submitted; an omitted image is accepted by the
update serializer but rejected as `required` by the create serializer; and
the (framework-default) update application with the image absent from the
validated data applies the other fields and leaves the stored image
untouched. -/
theorem update_payload_shape_and_image_frame (s : Store) (p : RawPayload)
    (r : Recipe) (vd : ValidatedData) :
    (∀ img, p.image = some img →
      RecipeUpdateSerializer.to_internal_value s p =
        RecipeCreateSerializer.to_internal_value s p) ∧
    (p.image = none → validateImageField false p.image = .ok (.ok none)) ∧
    (p.image = none → validateImageField true p.image = .ok (.error .required)) ∧
    (vd.image = none →
      updateRecipe r vd =
        { r with name := vd.name, text := vd.text, cooking_time := vd.cooking_time }) := by
  refine ⟨?_, ?_, ?_, ?_⟩
  · intro img himg
    unfold RecipeUpdateSerializer.to_internal_value RecipeCreateSerializer.to_internal_value
      recipeInternalValue validateImageField
    rw [himg]
  · intro h
    rw [h]
    rfl
  · intro h
    rw [h]
    rfl
  · intro h
    simp [updateRecipe, h]

/-- Witness for C8 at a concrete update payload and recipe. -/
theorem update_payload_shape_witness :
    RecipeUpdateSerializer.to_internal_value ⟨[], [], [], [], [], [], [], [], 0, 0⟩
        ⟨some [], [], "n", some (.file ⟨"a.png".data, [1]⟩), "t", 5⟩ =
      RecipeCreateSerializer.to_internal_value ⟨[], [], [], [], [], [], [], [], 0, 0⟩
        ⟨some [], [], "n", some (.file ⟨"a.png".data, [1]⟩), "t", 5⟩ ∧
    updateRecipe ⟨1, 1, "old", ⟨"old.png".data, [3]⟩, "otext", 7⟩
        ⟨[], [], "new", none, "ntext", 9⟩ =
      { id := 1, author := 1, name := "new", image := ⟨"old.png".data, [3]⟩,
        text := "ntext", cooking_time := 9 } :=
  ⟨(update_payload_shape_and_image_frame _
      ⟨some [], [], "n", some (.file ⟨"a.png".data, [1]⟩), "t", 5⟩ ⟨1, 1, "old",
        ⟨"old.png".data, [3]⟩, "otext", 7⟩ ⟨[], [], "new", none, "ntext", 9⟩).1
      (.file ⟨"a.png".data, [1]⟩) rfl,
   (update_payload_shape_and_image_frame ⟨[], [], [], [], [], [], [], [], 0, 0⟩
      ⟨some [], [], "n", some (.file ⟨"a.png".data, [1]⟩), "t", 5⟩ ⟨1, 1, "old",
        ⟨"old.png".data, [3]⟩, "otext", 7⟩ ⟨[], [], "new", none, "ntext", 9⟩).2.2.2 rfl⟩


/-- C1: the multi-step assembly is not atomic.  On the concrete request
above, the assembly fails partway (IntegrityError on the second ingredient),
yet the store it leaves behind differs from the initial one: the Recipe row
and the first ingredient's rows are still persisted, because the source
wraps the writes in no transaction. -/
theorem recipe_create_partial_writes_persist :
    RecipeCreateSerializer.create c1Store 1 c1Data = .error (.integrityError, c1Partial) ∧
    c1Partial ≠ c1Store ∧
    c1Partial.recipes.length = c1Store.recipes.length + 1 ∧
    c1Partial.ingredientJoins.length = c1Store.ingredientJoins.length + 1 := by
  refine ⟨rfl, ?_, rfl, rfl⟩
  decide

/-- The tag loop only touches the Tag table and the TagInRecipe joins. -/
theorem tagLoop_frame (rid : Nat) (ts : List Tag) (s : Store) :
    (tagLoop rid s ts).ingredients = s.ingredients ∧
    (tagLoop rid s ts).amounts = s.amounts ∧
    (tagLoop rid s ts).ingredientJoins = s.ingredientJoins ∧
    (tagLoop rid s ts).nextAmountId = s.nextAmountId ∧
    (tagLoop rid s ts).nextRecipeId = s.nextRecipeId := by
  induction ts generalizing s with
  | nil => exact ⟨rfl, rfl, rfl, rfl, rfl⟩
  | cons t rest ih =>
      unfold tagLoop getOrCreateTag
      cases hf : s.tags.find? (fun x => x.id == t.id) <;> simp only [hf] <;> exact ih _

theorem tagLoop_ingredients (rid : Nat) (s : Store) (ts : List Tag) :
    (tagLoop rid s ts).ingredients = s.ingredients := (tagLoop_frame rid ts s).1

theorem tagLoop_amounts (rid : Nat) (s : Store) (ts : List Tag) :
    (tagLoop rid s ts).amounts = s.amounts := (tagLoop_frame rid ts s).2.1

theorem tagLoop_ingredientJoins (rid : Nat) (s : Store) (ts : List Tag) :
    (tagLoop rid s ts).ingredientJoins = s.ingredientJoins := (tagLoop_frame rid ts s).2.2.1

theorem tagLoop_nextAmountId (rid : Nat) (s : Store) (ts : List Tag) :
    (tagLoop rid s ts).nextAmountId = s.nextAmountId := (tagLoop_frame rid ts s).2.2.2.1

theorem tagLoop_nextRecipeId (rid : Nat) (s : Store) (ts : List Tag) :
    (tagLoop rid s ts).nextRecipeId = s.nextRecipeId := (tagLoop_frame rid ts s).2.2.2.2

/-- Outcome of the ingredient loop on a single entry: either the
(ingredient, amount) row already existed and only a join row is added, or a
fresh row with the next id is inserted together with its join row. -/
theorem ingredientLoop_singleton (rid : Nat) (s : Store) (ing : Ingredient)
    (a : Nat) (s' : Store) (h : ingredientLoop rid s [(ing, a)] = .ok s') :
    (∃ row0, s.amounts.find? (fun x => x.ingredient == ing.id && x.amount == a) = some row0 ∧
      s' = { s with ingredientJoins := s.ingredientJoins ++ [⟨row0.id, rid⟩] }) ∨
    (s.amounts.find? (fun x => x.ingredient == ing.id && x.amount == a) = none ∧
      s' = { s with amounts := s.amounts ++ [⟨s.nextAmountId, ing.id, a⟩],
                    nextAmountId := s.nextAmountId + 1,
                    ingredientJoins := s.ingredientJoins ++ [⟨s.nextAmountId, rid⟩] }) := by
  simp only [ingredientLoop, getOrCreateAmount] at h
  cases hf : s.amounts.find? (fun x => x.ingredient == ing.id && x.amount == a) with
  | some row0 =>
      rw [hf] at h
      exact .inl ⟨row0, rfl, (Except.ok.inj h).symm⟩
  | none =>
      rw [hf] at h
      cases hany : s.ingredients.any (fun x => x.id == ing.id) with
      | false =>
          rw [hany] at h
          simp at h
      | true =>
          rw [hany] at h
          exact .inr ⟨rfl, (Except.ok.inj h).symm⟩

/-- C3: two successful recipe creations that each reference the same
(ingredient, amount) pair — fresh in the store — leave exactly one
AmountOfIngredient row for that pair, and each of the two (distinct) new
recipes has exactly one IngredientInRecipe join row pointing at that shared
row. -/
theorem amount_of_ingredient_deduplicated
    (s s1 s2 : Store) (u1 u2 : Nat) (vd1 vd2 : ValidatedData) (r1 r2 : Recipe)
    (ing1 ing2 : Ingredient) (i a : Nat)
    (hid1 : ing1.id = i) (hid2 : ing2.id = i)
    (hi1 : vd1.ingredients = [(ing1, a)]) (hi2 : vd2.ingredients = [(ing2, a)])
    (hcnt : s.amounts.filter (fun x => x.ingredient == i && x.amount == a) = [])
    (hjf : ∀ j ∈ s.ingredientJoins, j.amount_of_ingredient ≠ s.nextAmountId)
    (h1 : RecipeCreateSerializer.create s u1 vd1 = .ok (r1, s1))
    (h2 : RecipeCreateSerializer.create s1 u2 vd2 = .ok (r2, s2)) :
    s2.amounts.filter (fun x => x.ingredient == i && x.amount == a) =
      [⟨s.nextAmountId, i, a⟩] ∧
    (s2.ingredientJoins.filter
      (fun j => j.amount_of_ingredient == s.nextAmountId && j.recipe == r1.id)).length = 1 ∧
    (s2.ingredientJoins.filter
      (fun j => j.amount_of_ingredient == s.nextAmountId && j.recipe == r2.id)).length = 1 ∧
    r1.id ≠ r2.id := by
  subst hid1
  have hfn : s.amounts.find? (fun x => x.ingredient == ing1.id && x.amount == a) = none :=
    find?_of_filter_nil hcnt
  simp only [RecipeCreateSerializer.create, hi1] at h1
  simp only [RecipeCreateSerializer.create, hi2] at h2
  split at h1
  · simp at h1
  next s3 heq1 =>
    obtain ⟨hr1, hs1⟩ := Prod.mk.inj (Except.ok.inj h1)
    subst hs1
    have hd1 := ingredientLoop_singleton _ _ _ _ _ heq1
    simp only [tagLoop_amounts, tagLoop_ingredientJoins, tagLoop_nextAmountId,
      tagLoop_nextRecipeId, tagLoop_ingredients] at hd1
    rcases hd1 with ⟨row0, hfind, hs3⟩ | ⟨hfind, hs3⟩
    · rw [hfn] at hfind
      cases hfind
    subst hs3
    split at h2
    · simp at h2
    next s4 heq2 =>
      obtain ⟨hr2, hs2⟩ := Prod.mk.inj (Except.ok.inj h2)
      subst hs2
      have hd2 := ingredientLoop_singleton _ _ _ _ _ heq2
      simp only [tagLoop_amounts, tagLoop_ingredientJoins, tagLoop_nextAmountId,
        tagLoop_nextRecipeId, tagLoop_ingredients, hid2] at hd2
      have hsome : ((s.amounts ++ [AmountOfIngredient.mk s.nextAmountId ing1.id a]).find?
          (fun x => x.ingredient == ing1.id && x.amount == a)) =
          some (AmountOfIngredient.mk s.nextAmountId ing1.id a) := by
        rw [find?_append_none _ hfn]
        simp [List.find?]
      rcases hd2 with ⟨row0, hfind2, hs4⟩ | ⟨hfind2, hs4⟩
      · rw [hsome] at hfind2
        obtain rfl := Option.some.inj hfind2
        subst hs4
        subst hr1
        subst hr2
        have hne : s.nextRecipeId + 1 ≠ s.nextRecipeId := by omega
        refine ⟨?_, ?_, ?_, by simp [Ne.symm hne]⟩
        · simp only [List.filter_append, hcnt]
          simp
        · simp only [List.filter_append, List.length_append]
          rw [List.filter_eq_nil_iff.mpr (fun j hj => by simp [hjf j hj])]
          simp [hne]
        · simp only [List.filter_append, List.length_append]
          rw [List.filter_eq_nil_iff.mpr (fun j hj => by simp [hjf j hj])]
          simp [hne]
      · rw [hsome] at hfind2
        cases hfind2


/-- Witness for C3 on the concrete double creation of the (5, 200) pair. -/
theorem amount_of_ingredient_deduplicated_witness :
    c3Store2.amounts.filter (fun x => x.ingredient == 5 && x.amount == 200) =
      [⟨c3Store.nextAmountId, 5, 200⟩] ∧
    (c3Store2.ingredientJoins.filter
      (fun j => j.amount_of_ingredient == c3Store.nextAmountId &&
        j.recipe == c3Recipe1.id)).length = 1 ∧
    (c3Store2.ingredientJoins.filter
      (fun j => j.amount_of_ingredient == c3Store.nextAmountId &&
        j.recipe == c3Recipe2.id)).length = 1 ∧
    c3Recipe1.id ≠ c3Recipe2.id :=
  amount_of_ingredient_deduplicated c3Store c3Store1 c3Store2 1 2 c3Data c3Data
    c3Recipe1 c3Recipe2 c3Salt c3Salt 5 200 rfl rfl rfl rfl (by decide)
    (by decide) (by decide) (by decide)

theorem b64val_pad : b64val '=' = none := by decide

theorem b64val_b64char : ∀ v : Fin 64, b64val (b64char v.1) = some v.1 := by decide

theorem b64char_valid {v : Nat} (hv : v < 64) : b64val (b64char v) = some v :=
  b64val_b64char ⟨v, hv⟩

theorem a2bLoop_data {c : Char} {v : Nat} (hv : b64val c = some v)
    (rest : List Char) (qp lc lb : Nat) (out : List Nat) :
    a2bLoop (c :: rest) qp lc lb out =
      if 8 ≤ lb + 6 then
        a2bLoop rest ((qp + 1) % 4) ((lc * 64 + v) % 2 ^ (lb + 6 - 8)) (lb + 6 - 8)
          ((lc * 64 + v) / 2 ^ (lb + 6 - 8) % 256 :: out)
      else a2bLoop rest ((qp + 1) % 4) (lc * 64 + v) (lb + 6) out := by
  have hne : c ≠ '=' := by
    intro h
    rw [h, b64val_pad] at hv
    cases hv
  conv_lhs => rw [a2bLoop]
  rw [if_neg hne, hv]

theorem a2bLoop_pad_qp3 (rest : List Char) (lc lb : Nat) (out : List Nat) :
    a2bLoop ('=' :: rest) 3 lc lb out = .ok out.reverse := by
  unfold a2bLoop
  simp

theorem a2bLoop_pad_qp2 (rest : List Char) (lc lb : Nat) (out : List Nat)
    (h : rest.find? b64valid = some '=') :
    a2bLoop ('=' :: rest) 2 lc lb out = .ok out.reverse := by
  unfold a2bLoop
  simp [h]

theorem a2bLoop_encode : ∀ (bytes : List Nat), (∀ b ∈ bytes, b < 256) →
    ∀ acc : List Nat, a2bLoop (b64encode bytes) 0 0 0 acc = .ok (acc.reverse ++ bytes)
  | [], _, acc => by simp [b64encode, a2bLoop]
  | [b1], hb, acc => by
      have h1 : b1 < 256 := hb b1 (by simp)
      rw [show b64encode [b1] = [b64char (b1 / 4), b64char (b1 % 4 * 16), '=', '='] from rfl]
      rw [a2bLoop_data (b64char_valid (by omega : b1 / 4 < 64))]
      rw [if_neg (by norm_num)]
      rw [a2bLoop_data (b64char_valid (by omega : b1 % 4 * 16 < 64))]
      rw [if_pos (by norm_num)]
      norm_num
      rw [a2bLoop_pad_qp2 _ _ _ _ (by decide)]
      have : (b1 / 4 * 64 + b1 % 4 * 16) / 16 % 256 = b1 := by omega
      rw [this]
      simp
  | [b1, b2], hb, acc => by
      have h1 : b1 < 256 := hb b1 (by simp)
      have h2 : b2 < 256 := hb b2 (by simp)
      rw [show b64encode [b1, b2] = [b64char (b1 / 4), b64char (b1 % 4 * 16 + b2 / 16),
        b64char (b2 % 16 * 4), '='] from rfl]
      rw [a2bLoop_data (b64char_valid (by omega : b1 / 4 < 64))]
      rw [if_neg (by norm_num)]
      rw [a2bLoop_data (b64char_valid (by omega : b1 % 4 * 16 + b2 / 16 < 64))]
      rw [if_pos (by norm_num)]
      norm_num
      rw [a2bLoop_data (b64char_valid (by omega : b2 % 16 * 4 < 64))]
      rw [if_pos (by norm_num)]
      norm_num
      rw [a2bLoop_pad_qp3]
      have e1 : (b1 / 4 * 64 + (b1 % 4 * 16 + b2 / 16)) / 16 % 256 = b1 := by omega
      have e2 : ((b1 / 4 * 64 + (b1 % 4 * 16 + b2 / 16)) % 16 * 64 + b2 % 16 * 4) / 4 % 256 = b2 := by
        omega
      rw [e1, e2]
      simp
  | b1 :: b2 :: b3 :: rest, hb, acc => by
      have h1 : b1 < 256 := hb b1 (by simp)
      have h2 : b2 < 256 := hb b2 (by simp)
      have h3 : b3 < 256 := hb b3 (by simp)
      have ih := a2bLoop_encode rest (fun b hbm => hb b (by simp [hbm]))
      rw [show b64encode (b1 :: b2 :: b3 :: rest) = b64char (b1 / 4) ::
        b64char (b1 % 4 * 16 + b2 / 16) :: b64char (b2 % 16 * 4 + b3 / 64) ::
        b64char (b3 % 64) :: b64encode rest from rfl]
      rw [a2bLoop_data (b64char_valid (by omega : b1 / 4 < 64))]
      rw [if_neg (by norm_num)]
      rw [a2bLoop_data (b64char_valid (by omega : b1 % 4 * 16 + b2 / 16 < 64))]
      rw [if_pos (by norm_num)]
      norm_num
      rw [a2bLoop_data (b64char_valid (by omega : b2 % 16 * 4 + b3 / 64 < 64))]
      rw [if_pos (by norm_num)]
      norm_num
      rw [a2bLoop_data (b64char_valid (by omega : b3 % 64 < 64))]
      rw [if_pos (by norm_num)]
      norm_num
      rw [Nat.mod_one]
      rw [ih]
      have e1 : (b1 / 4 * 64 + (b1 % 4 * 16 + b2 / 16)) / 16 % 256 = b1 := by omega
      have e2 : ((b1 / 4 * 64 + (b1 % 4 * 16 + b2 / 16)) % 16 * 64 + (b2 % 16 * 4 + b3 / 64)) / 4
          % 256 = b2 := by omega
      have e3 : (((b1 / 4 * 64 + (b1 % 4 * 16 + b2 / 16)) % 16 * 64 + (b2 % 16 * 4 + b3 / 64)) % 4
          * 64 + b3 % 64) % 256 = b3 := by omega
      rw [e1, e2, e3]
      simp

theorem b64val_ascii {c : Char} {v : Nat} (h : b64val c = some v) : c.toNat < 128 := by
  simp only [b64val] at h
  split_ifs at h <;> omega

theorem b64val_ne_semicolon {c : Char} {v : Nat} (h : b64val c = some v) : c ≠ ';' := by
  intro he
  rw [he, show b64val ';' = none from by decide] at h
  cases h

theorem b64char_props {v : Nat} (hv : v < 64) :
    (b64char v).toNat < 128 ∧ b64char v ≠ ';' :=
  ⟨b64val_ascii (b64char_valid hv), b64val_ne_semicolon (b64char_valid hv)⟩

theorem b64encode_mem : ∀ (bytes : List Nat), (∀ b ∈ bytes, b < 256) →
    ∀ c ∈ b64encode bytes, c.toNat < 128 ∧ c ≠ ';'
  | [], _, c, hc => by simp [b64encode] at hc
  | [b1], hb, c, hc => by
      have h1 : b1 < 256 := hb b1 (by simp)
      simp only [b64encode, List.mem_cons, List.not_mem_nil, or_false] at hc
      rcases hc with rfl | rfl | rfl | rfl
      · exact b64char_props (by omega)
      · exact b64char_props (by omega)
      · exact ⟨by decide, by decide⟩
      · exact ⟨by decide, by decide⟩
  | [b1, b2], hb, c, hc => by
      have h1 : b1 < 256 := hb b1 (by simp)
      have h2 : b2 < 256 := hb b2 (by simp)
      simp only [b64encode, List.mem_cons, List.not_mem_nil, or_false] at hc
      rcases hc with rfl | rfl | rfl | rfl
      · exact b64char_props (by omega)
      · exact b64char_props (by omega)
      · exact b64char_props (by omega)
      · exact ⟨by decide, by decide⟩
  | b1 :: b2 :: b3 :: rest, hb, c, hc => by
      have h1 : b1 < 256 := hb b1 (by simp)
      have h2 : b2 < 256 := hb b2 (by simp)
      have h3 : b3 < 256 := hb b3 (by simp)
      simp only [b64encode, List.mem_cons] at hc
      rcases hc with rfl | rfl | rfl | rfl | hc
      · exact b64char_props (by omega)
      · exact b64char_props (by omega)
      · exact b64char_props (by omega)
      · exact b64char_props (by omega)
      · exact b64encode_mem rest (fun b hbm => hb b (by simp [hbm])) c hc

theorem b64decode_encode (bytes : List Nat) (hb : ∀ b ∈ bytes, b < 256) :
    b64decode (b64encode bytes) = .ok bytes := by
  unfold b64decode
  rw [if_pos (List.all_eq_true.mpr (fun c hc => by
    simpa using (b64encode_mem bytes hb c hc).1))]
  rw [a2bLoop_encode bytes hb []]
  simp

theorem splitAux_fuel_irrelevant (h : Char) (t : List Char) :
    ∀ (fuel1 : Nat) (l : List Char) (fuel2 : Nat) (acc : List Char),
      l.length ≤ fuel1 → l.length ≤ fuel2 →
      splitAux h t fuel1 l acc = splitAux h t fuel2 l acc
  | fuel1, [], fuel2, acc, _, _ => by
      cases fuel1 <;> cases fuel2 <;> rfl
  | fuel1 + 1, c :: cs, fuel2 + 1, acc, hf1, hf2 => by
      simp only [List.length_cons] at hf1 hf2
      unfold splitAux
      by_cases hp : (h :: t).isPrefixOf (c :: cs) = true
      · rw [if_pos hp, if_pos hp]
        have hlen : ((c :: cs).drop (h :: t).length).length ≤ fuel1 ∧
            ((c :: cs).drop (h :: t).length).length ≤ fuel2 := by
          simp only [List.length_drop, List.length_cons]
          constructor <;> omega
        rw [splitAux_fuel_irrelevant h t fuel1 _ fuel2 [] hlen.1 hlen.2]
      · rw [if_neg hp, if_neg hp]
        have hl1 : cs.length ≤ fuel1 := by omega
        have hl2 : cs.length ≤ fuel2 := by omega
        rw [splitAux_fuel_irrelevant h t fuel1 cs fuel2 (c :: acc) hl1 hl2]
  | 0, c :: cs, _, acc, hf1, _ => by simp at hf1
  | _ + 1, c :: cs, 0, acc, _, hf2 => by simp at hf2

theorem splitAux_no_head (h : Char) (t : List Char) :
    ∀ (l : List Char) (fuel : Nat) (acc : List Char), l.length ≤ fuel → h ∉ l →
      splitAux h t fuel l acc = [acc.reverse ++ l]
  | [], fuel, acc, _, _ => by cases fuel <;> simp [splitAux]
  | c :: cs, 0, acc, hf, _ => by simp at hf
  | c :: cs, fuel + 1, acc, hf, hmem => by
      have hne : h ≠ c := fun hh => hmem (hh ▸ List.mem_cons_self c cs)
      have hpf : (h :: t).isPrefixOf (c :: cs) = false := by
        simp [List.isPrefixOf, hne]
      unfold splitAux
      rw [hpf]
      simp only [Bool.false_eq_true, if_false]
      rw [splitAux_no_head h t cs fuel (c :: acc) (by simp at hf; omega)
        (fun hm => hmem (List.mem_cons_of_mem c hm))]
      simp

theorem splitAux_boundary (h : Char) (t : List Char) :
    ∀ (A : List Char) (B : List Char) (fuel : Nat) (acc : List Char),
      (A ++ (h :: t) ++ B).length ≤ fuel → h ∉ A →
      splitAux h t fuel (A ++ (h :: t) ++ B) acc =
        (acc.reverse ++ A) :: splitAux h t B.length B []
  | [], B, fuel, acc, hf, _ => by
      match fuel, hf with
      | fuel + 1, hf => ?_
      simp only [List.nil_append]
      have hsh : ((h :: t) ++ B) = h :: (t ++ B) := by simp
      rw [hsh]
      conv_lhs => rw [splitAux]
      have hpf : (h :: t).isPrefixOf (h :: (t ++ B)) = true :=
        isPrefixOf_append_self (h :: t) B
      rw [hpf]
      simp only [if_true]
      have hdrop : (h :: (t ++ B)).drop (h :: t).length = B := by
        simp only [List.length_cons, List.drop_succ_cons]
        exact List.drop_left t B
      rw [hdrop]
      have hlen : B.length ≤ fuel := by
        simp only [List.length_cons, List.length_append] at hf
        omega
      rw [splitAux_fuel_irrelevant h t fuel B B.length [] hlen (le_refl _)]
      simp
  | c :: A', B, fuel, acc, hf, hmem => by
      match fuel, hf with
      | fuel + 1, hf => ?_
      have hne : h ≠ c := fun hh => hmem (hh ▸ List.mem_cons_self c A')
      have hshape : ((c :: A') ++ (h :: t) ++ B) = c :: (A' ++ (h :: t) ++ B) := by simp
      rw [hshape]
      have hpf : (h :: t).isPrefixOf (c :: (A' ++ (h :: t) ++ B)) = false := by
        simp [List.isPrefixOf, hne]
      conv_lhs => rw [splitAux]
      rw [hpf]
      simp only [Bool.false_eq_true, if_false]
      rw [splitAux_boundary h t A' B fuel (c :: acc)
        (by simp at hf ⊢; omega) (fun hm => hmem (List.mem_cons_of_mem c hm))]
      simp

theorem splitOnSub_boundary (h : Char) (t : List Char) (A B : List Char)
    (hA : h ∉ A) (hB : h ∉ B) :
    splitOnSub h t (A ++ (h :: t) ++ B) = [A, B] := by
  unfold splitOnSub
  rw [splitAux_boundary h t A B _ [] (le_refl _) hA]
  rw [splitAux_no_head h t B B.length [] (le_refl _) hB]
  simp

/-- C4: every data-URI string `data:image/<ext>;base64,<payload>` whose
payload is the base64 encoding of a byte sequence decodes to a named file
`temp.<ext>` holding exactly those bytes, and raw file uploads are passed
through to the parent field unchanged. -/
theorem base64_data_uri_decoded (ext : List Char) (bytes : List Nat)
    (hsemi : ';' ∉ ext) (hslash : '/' ∉ ext) (hb : ∀ b ∈ bytes, b < 256) :
    Base64ImageField.to_internal_value
        (.str ("data:image/".data ++ ext ++ ";base64,".data ++ b64encode bytes)) =
      .ok ⟨"temp.".data ++ ext, bytes⟩ ∧
    (∀ f : ContentFile, Base64ImageField.to_internal_value (.file f) = .ok f) := by
  refine ⟨?_, fun f => rfl⟩
  have hA : ';' ∉ "data:image/".data ++ ext := by
    intro hmem
    rcases List.mem_append.mp hmem with hm | hm
    · exact absurd hm (by decide)
    · exact hsemi hm
  have hB : ';' ∉ b64encode bytes := fun hm => (b64encode_mem bytes hb ';' hm).2 rfl
  have hsplit : splitOnSub ';' b64sepTail
      ("data:image/".data ++ ext ++ ";base64,".data ++ b64encode bytes) =
      ["data:image/".data ++ ext, b64encode bytes] := by
    rw [show "data:image/".data ++ ext ++ ";base64,".data ++ b64encode bytes =
      ("data:image/".data ++ ext) ++ (';' :: b64sepTail) ++ b64encode bytes from by
        rw [show (";base64,".data : List Char) = ';' :: b64sepTail from rfl]]
    exact splitOnSub_boundary ';' b64sepTail _ _ hA hB
  have hpre : ("data:image".data).isPrefixOf
      ("data:image/".data ++ ext ++ ";base64,".data ++ b64encode bytes) = true := by
    rw [show ("data:image/".data : List Char) ++ ext ++ ";base64,".data ++ b64encode bytes =
      "data:image".data ++ ('/' :: (ext ++ ";base64,".data ++ b64encode bytes)) from by
        rw [show ("data:image/".data : List Char) = "data:image".data ++ ['/'] from rfl]
        simp]
    exact isPrefixOf_append_self _ _
  have hext : (splitOnSub '/' [] ("data:image/".data ++ ext)).getLastD [] = ext := by
    rw [show ("data:image/".data : List Char) ++ ext =
      "data:image".data ++ ('/' :: []) ++ ext from by
        rw [show ("data:image/".data : List Char) = "data:image".data ++ ['/'] from rfl]]
    rw [splitOnSub_boundary '/' [] "data:image".data ext (by decide) hslash]
    rfl
  simp only [Base64ImageField.to_internal_value, hpre, if_true, hsplit, hext,
    b64decode_encode bytes hb, imageFieldParent]

theorem a2bLoop_error_of_all_data : ∀ (l : List Char),
    (∀ c ∈ l, (b64val c).isSome = true) →
    ∀ qp lc lb out, lb < 8 → (lb + 6 * l.length) % 8 ≠ 0 →
      a2bLoop l qp lc lb out = .error .binasciiError
  | [], _, qp, lc, lb, out, hlb, hmod => by
      have : lb ≠ 0 := by
        simp only [List.length_nil] at hmod
        omega
      simp [a2bLoop, this]
  | c :: rest, hall, qp, lc, lb, out, hlb, hmod => by
      obtain ⟨v, hv⟩ := Option.isSome_iff_exists.mp (hall c (by simp))
      rw [a2bLoop_data hv]
      simp only [List.length_cons] at hmod
      by_cases h8 : 8 ≤ lb + 6
      · rw [if_pos h8]
        exact a2bLoop_error_of_all_data rest (fun c2 hc2 => hall c2 (by simp [hc2]))
          _ _ _ _ (by omega) (by omega)
      · rw [if_neg h8]
        exact a2bLoop_error_of_all_data rest (fun c2 hc2 => hall c2 (by simp [hc2]))
          _ _ _ _ (by omega) (by omega)

/-- C5 (amended): a `data:image` string without the `;base64,` separator
(the split does not have exactly two parts) fails with the tuple-unpacking
`ValueError`, and a payload of base64-alphabet characters whose count is not
a multiple of four fails with the `binascii` incorrect-padding error.  (The
original claim fails for payloads of non-alphabet characters, which CPython
silently discards — see the counterexample.) -/
theorem image_decoder_failure_modes :
    (∀ s : List Char, ("data:image".data).isPrefixOf s = true →
      (splitOnSub ';' b64sepTail s).length ≠ 2 →
      Base64ImageField.to_internal_value (.str s) = .error .valueError) ∧
    (∀ ext payload : List Char, ';' ∉ ext →
      (∀ c ∈ payload, (b64val c).isSome = true) → payload.length % 4 ≠ 0 →
      Base64ImageField.to_internal_value
          (.str ("data:image/".data ++ ext ++ ";base64,".data ++ payload)) =
        .error .binasciiError) := by
  constructor
  · intro s hpre hlen
    simp only [Base64ImageField.to_internal_value, hpre, if_true]
    rcases hsp : splitOnSub ';' b64sepTail s with _ | ⟨a, _ | ⟨b, _ | _⟩⟩ <;>
      first
        | rfl
        | (rw [hsp] at hlen; simp at hlen)
  · intro ext payload hsemi hall hlen
    have hA : ';' ∉ "data:image/".data ++ ext := by
      intro hmem
      rcases List.mem_append.mp hmem with hm | hm
      · exact absurd hm (by decide)
      · exact hsemi hm
    have hB : ';' ∉ payload := by
      intro hm
      obtain ⟨v, hv⟩ := Option.isSome_iff_exists.mp (hall ';' hm)
      exact b64val_ne_semicolon hv rfl
    have hsplit : splitOnSub ';' b64sepTail
        ("data:image/".data ++ ext ++ ";base64,".data ++ payload) =
        ["data:image/".data ++ ext, payload] := by
      rw [show "data:image/".data ++ ext ++ ";base64,".data ++ payload =
        ("data:image/".data ++ ext) ++ (';' :: b64sepTail) ++ payload from by
          rw [show (";base64,".data : List Char) = ';' :: b64sepTail from rfl]]
      exact splitOnSub_boundary ';' b64sepTail _ _ hA hB
    have hpre : ("data:image".data).isPrefixOf
        ("data:image/".data ++ ext ++ ";base64,".data ++ payload) = true := by
      rw [show ("data:image/".data : List Char) ++ ext ++ ";base64,".data ++ payload =
        "data:image".data ++ ('/' :: (ext ++ ";base64,".data ++ payload)) from by
          rw [show ("data:image/".data : List Char) = "data:image".data ++ ['/'] from rfl]
          simp]
      exact isPrefixOf_append_self _ _
    have hdec : b64decode payload = .error .binasciiError := by
      unfold b64decode
      rw [if_pos (List.all_eq_true.mpr (fun c hc => by
        obtain ⟨v, hv⟩ := Option.isSome_iff_exists.mp (hall c hc)
        simpa using b64val_ascii hv))]
      exact a2bLoop_error_of_all_data payload hall 0 0 0 [] (by omega) (by omega)
    simp only [Base64ImageField.to_internal_value, hpre, if_true, hsplit, hdec]

/-- C7 (amended): re-submitting the serialized representation of a persisted
recipe (with at least one tag) verbatim as an update does not succeed: the
read form renders tags as full objects, the write path wraps each into an
id-keyed object whose value is then rejected by the primary-key field as an
incorrect type, so deserialization fails with a structured validation error
naming the `tags` field. -/
theorem round_trip_resubmission_rejected (s : Store) (r : Recipe)
    (htags : tagsOfRecipe s r.id ≠ []) :
    ∃ errs, RecipeUpdateSerializer.to_internal_value s (serializeRecipe s r) =
      .error (.validationError errs) ∧ ("tags", FieldErr.incorrectType) ∈ errs := by
  obtain ⟨t0, ts, hts⟩ : ∃ t0 ts, tagsOfRecipe s r.id = t0 :: ts := by
    cases h : tagsOfRecipe s r.id with
    | nil => exact absurd h htags
    | cons a as => exact ⟨a, as, rfl⟩
  have htr : validateTagsField s (((tagsOfRecipe s r.id).map (fun t =>
      PyVal.dict [("id", .num t.id), ("name", .str t.name), ("slug", .str t.slug)])).map
        wrapTag) = .error .incorrectType := by
    rw [hts]
    simp only [List.map_cons]
    unfold validateTagsField
    have hrun : tagsInRecipeRun s (wrapTag (PyVal.dict [("id", .num t0.id),
        ("name", .str t0.name), ("slug", .str t0.slug)])) = .error .incorrectType := by
      simp [tagsInRecipeRun, wrapTag, PyVal.lookup, tagPkField]
    rw [hrun]
  have himg : validateImageField false (some (.str ("/media/".data ++ r.image.name))) =
      .ok (.error .notAFile) := by
    have hpf : ("data:image".data).isPrefixOf ("/media/".data ++ r.image.name) = false := by
      rw [show ("/media/".data : List Char) ++ r.image.name =
        '/' :: ("media/".data ++ r.image.name) from rfl]
      simp [List.isPrefixOf]
    simp only [validateImageField, Base64ImageField.to_internal_value, hpf,
      Bool.false_eq_true, if_false, imageFieldParent]
  unfold RecipeUpdateSerializer.to_internal_value recipeInternalValue serializeRecipe
  simp only []
  rw [himg, htr]
  cases hir : validateIngredientsField s ((amountsOfRecipe s r.id).map (renderAmount s)) with
  | error e => exact ⟨_, rfl, by simp [errOf]⟩
  | ok v => exact ⟨_, rfl, by simp [errOf]⟩

/-- Witness for C4 at a concrete extension and byte sequence. -/
theorem base64_data_uri_decoded_witness :
    Base64ImageField.to_internal_value
        (.str ("data:image/".data ++ "png".data ++ ";base64,".data ++
          b64encode [137, 80, 78])) =
      .ok ⟨"temp.".data ++ "png".data, [137, 80, 78]⟩ ∧
    (∀ f : ContentFile, Base64ImageField.to_internal_value (.file f) = .ok f) :=
  base64_data_uri_decoded "png".data [137, 80, 78] (by decide) (by decide) (by decide)

/-- Counterexample to C5 as stated: the payload `!!!!` is not valid base64,
yet the decoder succeeds — CPython discards the invalid characters and
decodes the empty rest, so the field produces an (empty) file instead of
failing with a decoding error. -/
theorem invalid_base64_payload_succeeds_counterexample :
    Base64ImageField.to_internal_value (.str "data:image/png;base64,!!!!".data) =
      .ok ⟨"temp.png".data, []⟩ := by decide

/-- Witness for C5 (amended) at a concrete missing-separator string and a
concrete bad-padding payload. -/
theorem image_decoder_failure_modes_witness :
    Base64ImageField.to_internal_value (.str "data:image/png".data) =
      .error .valueError ∧
    Base64ImageField.to_internal_value
        (.str ("data:image/".data ++ "png".data ++ ";base64,".data ++ "abc".data)) =
      .error .binasciiError :=
  ⟨image_decoder_failure_modes.1 "data:image/png".data (by decide) (by decide),
   image_decoder_failure_modes.2 "png".data "abc".data (by decide) (by decide) (by decide)⟩

/-- Counterexample to C7 as stated: serializing the concrete persisted recipe
and re-submitting the identical representation as an update does not succeed —
it fails validation on the `tags` field (objects where the write path expects
bare identifiers) and on the `image` field (a URL string, not a data URI). -/
theorem round_trip_resubmission_counterexample :
    RecipeUpdateSerializer.to_internal_value c7Store (serializeRecipe c7Store c7Recipe) =
      .error (.validationError
        [("tags", .incorrectType), ("image", .notAFile)]) := by decide

/-- Witness for C7 (amended) at the concrete persisted recipe. -/
theorem round_trip_resubmission_rejected_witness :
    ∃ errs, RecipeUpdateSerializer.to_internal_value c7Store
        (serializeRecipe c7Store c7Recipe) =
      .error (.validationError errs) ∧ ("tags", FieldErr.incorrectType) ∈ errs :=
  round_trip_resubmission_rejected c7Store c7Recipe (by decide)


end Foodgram
